import Mathlib

/-!
Verification of the GFF (generic file format) decoder in
`src/aurora/gfffile.cpp`.

The decoder is shallowly embedded: the shared seekable byte stream becomes a
`Stream` structure (immutable byte list plus a read position), reads return
`Except GFFError`, C++ exceptions become `GFFError` values, and machine
integers become `Nat`/`Int` with explicit `% 2^w` at every narrowing or
reinterpreting cast.  A struct's lazily populated label-to-field cache
(`std::map<UString, Field>`) becomes an association list keyed by the label's
byte string; the accessors operate on a populated cache, since `load()` on a
populated cache is a no-op (proved below for the idempotence claim).
-/

deriving instance DecidableEq for Except

namespace GFF

/-- Field type codes of `GFFStruct::FieldType`.  The numeric codes used in
the field table follow the enum in the accompanying header (byte = 0, char =
1, ..., strRef = 18); an unrecognized code behaves like `none`: it matches no
accessor's type test, exactly as an out-of-enum `uint32` cast does in the
C++ comparisons. -/
inductive FieldType
  | byte
  | char
  | uint16
  | sint16
  | uint32
  | sint32
  | uint64
  | sint64
  | float
  | double
  | exoString
  | resRef
  | locString
  | void
  | strct
  | list
  | orientation
  | vector
  | strRef
  | none
deriving DecidableEq, Fintype, Repr

/-- Conversion of a raw `uint32` type code into a `FieldType`, mirroring the
`(FieldType) type` cast in `GFFStruct::readField`. -/
def FieldType.ofCode (c : Nat) : FieldType :=
  match c with
  | 0 => .byte
  | 1 => .char
  | 2 => .uint16
  | 3 => .sint16
  | 4 => .uint32
  | 5 => .sint32
  | 6 => .uint64
  | 7 => .sint64
  | 8 => .float
  | 9 => .double
  | 10 => .exoString
  | 11 => .resRef
  | 12 => .locString
  | 13 => .void
  | 14 => .strct
  | 15 => .list
  | 16 => .orientation
  | 17 => .vector
  | 18 => .strRef
  | _ => .none

/-- The twelve `(offset, count)` words of the GFF header
(`GFFFile::Header`). -/
structure Header where
  structOffset : Nat
  structCount : Nat
  fieldOffset : Nat
  fieldCount : Nat
  labelOffset : Nat
  labelCount : Nat
  fieldDataOffset : Nat
  fieldDataCount : Nat
  fieldIndicesOffset : Nat
  fieldIndicesCount : Nat
  listIndicesOffset : Nat
  listIndicesCount : Nat
deriving DecidableEq, Repr

/-- A field record: its type and its 32-bit inline data word
(`GFFStruct::Field`). -/
structure Field where
  type : FieldType
  data : Nat
deriving DecidableEq, Repr

/-- Whether the field's value lives out-of-band in the field-data table;
computed from the type exactly as the `GFFStruct::Field` constructor does. -/
def Field.extended (f : Field) : Bool :=
  (f.type = .uint64) || (f.type = .sint64) || (f.type = .double) ||
  (f.type = .exoString) || (f.type = .resRef) || (f.type = .locString) ||
  (f.type = .void) || (f.type = .orientation) || (f.type = .vector) ||
  (f.type = .strRef)

/-- Errors of the decoder.  Each constructor corresponds to one
`Common::Exception` thrown (or, for `strRefInvalidSize`, merely constructed)
in `gfffile.cpp`, or to a failed short read on the underlying stream. -/
inductive GFFError
  | shortRead
  | fieldIndexOutOfRange (index count : Nat)
  | fieldIndicesOutOfRange (index count : Nat)
  | listIndicesBroken
  | assertFailed
  | noSuchField
  | notCharType
  | notIntType
  | notDoubleType
  | notStringType
  | notLocStringType
  | notDataType
  | notVectorType
  | notOrientationType
  | notStructType
  | notListType
deriving DecidableEq, Repr

/-- The shared seekable byte source: an immutable byte list plus the current
read position (`Common::SeekableReadStream`). -/
structure Stream where
  data : List Nat
  pos : Nat
deriving DecidableEq, Repr

/-- Read one byte at the current position and advance; fails past the end. -/
def Stream.readByte (s : Stream) : Except GFFError (Nat × Stream) :=
  match s.data.get? s.pos with
  | some b => .ok (b % 2 ^ 8, { s with pos := s.pos + 1 })
  | Option.none => .error .shortRead

/-- Read a little-endian 16-bit word. -/
def Stream.readUint16LE (s : Stream) : Except GFFError (Nat × Stream) :=
  match s.readByte with
  | .error e => .error e
  | .ok (b0, s0) =>
    match s0.readByte with
    | .error e => .error e
    | .ok (b1, s1) => .ok (b0 + 2 ^ 8 * b1, s1)

/-- Read a little-endian 32-bit word. -/
def Stream.readUint32LE (s : Stream) : Except GFFError (Nat × Stream) :=
  match s.readUint16LE with
  | .error e => .error e
  | .ok (w0, s0) =>
    match s0.readUint16LE with
    | .error e => .error e
    | .ok (w1, s1) => .ok (w0 + 2 ^ 16 * w1, s1)

/-- Read a little-endian 64-bit word. -/
def Stream.readUint64LE (s : Stream) : Except GFFError (Nat × Stream) :=
  match s.readUint32LE with
  | .error e => .error e
  | .ok (w0, s0) =>
    match s0.readUint32LE with
    | .error e => .error e
    | .ok (w1, s1) => .ok (w0 + 2 ^ 32 * w1, s1)

/-- Read exactly `n` raw bytes. -/
def readBytes : Stream → Nat → Except GFFError (List Nat × Stream)
  | s, 0 => .ok ([], s)
  | s, n + 1 =>
    match s.readByte with
    | .error e => .error e
    | .ok (b, s1) =>
      match readBytes s1 n with
      | .error e => .error e
      | .ok (bs, s2) => .ok (b :: bs, s2)

/-- `Common::readStringFixed`: read exactly `n` bytes and trim the result at
the first zero byte. -/
def readStringFixed (s : Stream) (n : Nat) : Except GFFError (List Nat × Stream) :=
  match readBytes s n with
  | .error e => .error e
  | .ok (bs, s1) => .ok (bs.takeWhile (fun b => b != 0), s1)

/-- Two's-complement reinterpretation of a `w`-bit pattern as a signed
integer: the value of an `(intN)` cast from the same-width unsigned type. -/
def toSigned (w : Nat) (v : Nat) : Int :=
  if v < 2 ^ (w - 1) then (v : Int) else (v : Int) - 2 ^ w

/-- Reinterpretation of a signed 64-bit value as `uint64`: the value of a
`(uint64)` cast from `int64`. -/
def toUint64 (i : Int) : Nat :=
  (i % (2 ^ 64 : Int)).toNat

/-- The struct's label-to-field cache (`GFFStruct::_fields`,
a `std::map<Common::UString, Field>`), as an association list keyed by the
label's byte string. -/
abbrev FieldMap : Type := List (List Nat × Field)

/-- Lookup in the cache (`GFFStruct::getField`): `some` the field, or `none`
when the label is absent (the C++ returns a null pointer). -/
def findField (m : FieldMap) (lbl : List Nat) : Option Field :=
  match m with
  | [] => Option.none
  | (k, f) :: rest => if k = lbl then some f else findField rest lbl

/-- Insertion into the cache (`_fields[label] = field`): replaces an existing
entry for the same label, else appends. -/
def insertField (m : FieldMap) (lbl : List Nat) (f : Field) : FieldMap :=
  match m with
  | [] => [(lbl, f)]
  | (k, g) :: rest =>
    if k = lbl then (lbl, f) :: rest else (k, g) :: insertField rest lbl f

/-- `GFFFile::getFieldData`: seek the shared stream to the start of the
field-data table and hand it out. -/
def getFieldData (h : Header) (s : Stream) : Stream :=
  { s with pos := h.fieldDataOffset }

/-- `GFFStruct::getData(const Field &)`: position the shared stream at the
field's out-of-band payload, `fieldDataOffset + field.data`, by an absolute
seek followed by a relative one.  The prior position is neither consulted
nor saved: there is no restore. -/
def getData (h : Header) (f : Field) (s : Stream) : Stream :=
  let d := getFieldData h s
  { d with pos := d.pos + f.data }

/-- `GFFStruct::getChar`: default on a missing label, the low byte of the
inline word on a char field, a type error otherwise. -/
def getChar (h : Header) (m : FieldMap) (s : Stream) (lbl : List Nat)
    (d : Nat) : Except GFFError (Nat × Stream) :=
  match findField m lbl with
  | Option.none => .ok (d, s)
  | some f =>
    if f.type = .char then .ok (f.data % 2 ^ 8, s) else .error .notCharType

/-- `GFFStruct::getUint`.  Small unsigned types zero-extend the inline word;
char and the small signed types sign-extend through `int64` and are then
reinterpreted as `uint64`; uint64/sint64 read the raw 8-byte pattern from the
field data; strRef reads a 4-byte size prefix followed by the value.  The
C++ constructs `Common::Exception("StrRef field with invalid size...")` when
the prefix is not 4 but does not `throw` it, so the value is returned
regardless of the prefix; the embedding reproduces that. -/
def getUint (h : Header) (m : FieldMap) (s : Stream) (lbl : List Nat)
    (d : Nat) : Except GFFError (Nat × Stream) :=
  match findField m lbl with
  | Option.none => .ok (d, s)
  | some f =>
    match f.type with
    | .byte => .ok (f.data % 2 ^ 8, s)
    | .uint16 => .ok (f.data % 2 ^ 16, s)
    | .uint32 => .ok (f.data % 2 ^ 32, s)
    | .char => .ok (toUint64 (toSigned 8 (f.data % 2 ^ 8)), s)
    | .sint16 => .ok (toUint64 (toSigned 16 (f.data % 2 ^ 16)), s)
    | .sint32 => .ok (toUint64 (toSigned 32 (f.data % 2 ^ 32)), s)
    | .uint64 =>
      match (getData h f s).readUint64LE with
      | .error e => .error e
      | .ok (v, s1) => .ok (v, s1)
    | .sint64 =>
      match (getData h f s).readUint64LE with
      | .error e => .error e
      | .ok (v, s1) => .ok (toUint64 (toSigned 64 v), s1)
    | .strRef =>
      match (getData h f s).readUint32LE with
      | .error e => .error e
      | .ok (_size, s1) =>
        match s1.readUint32LE with
        | .error e => .error e
        | .ok (v, s2) => .ok (v, s2)
    | _ => .error .notIntType

/-- `GFFStruct::getSint`.  Every small integer type, including the unsigned
byte/uint16/uint32, is cast through the signed type of its own width and so
sign-extends; uint64/sint64 reinterpret the raw 8-byte pattern as `int64`;
strRef has the same constructed-but-unthrown size-prefix exception as
`getUint`. -/
def getSint (h : Header) (m : FieldMap) (s : Stream) (lbl : List Nat)
    (d : Int) : Except GFFError (Int × Stream) :=
  match findField m lbl with
  | Option.none => .ok (d, s)
  | some f =>
    match f.type with
    | .byte => .ok (toSigned 8 (f.data % 2 ^ 8), s)
    | .uint16 => .ok (toSigned 16 (f.data % 2 ^ 16), s)
    | .uint32 => .ok (toSigned 32 (f.data % 2 ^ 32), s)
    | .char => .ok (toSigned 8 (f.data % 2 ^ 8), s)
    | .sint16 => .ok (toSigned 16 (f.data % 2 ^ 16), s)
    | .sint32 => .ok (toSigned 32 (f.data % 2 ^ 32), s)
    | .uint64 =>
      match (getData h f s).readUint64LE with
      | .error e => .error e
      | .ok (v, s1) => .ok (toSigned 64 v, s1)
    | .sint64 =>
      match (getData h f s).readUint64LE with
      | .error e => .error e
      | .ok (v, s1) => .ok (toSigned 64 v, s1)
    | .strRef =>
      match (getData h f s).readUint32LE with
      | .error e => .error e
      | .ok (_size, s1) =>
        match s1.readUint32LE with
        | .error e => .error e
        | .ok (v, s2) => .ok ((v : Int), s2)
    | _ => .error .notIntType

/-- `GFFStruct::getBool`: `getUint(field, def) != 0`, the `bool` default
passing through its integral promotion. -/
def getBool (h : Header) (m : FieldMap) (s : Stream) (lbl : List Nat)
    (d : Bool) : Except GFFError (Bool × Stream) :=
  match getUint h m s lbl (if d then 1 else 0) with
  | .error e => .error e
  | .ok (v, s1) => .ok (v != 0, s1)

/-- A C++ `double` value as the decoder produces it.  No floating-point
arithmetic is performed on it, so it is kept symbolic: either the 32-bit
pattern of an inline float (`convertIEEEFloat`), the 64-bit pattern read
from the field data (`readIEEEDoubleLE`), the literal `0.0` used as the
default inside `getString`, or an arbitrary caller-supplied default. -/
inductive GFFDouble
  | ofFloatBits (bits : Nat)
  | ofDoubleBits (bits : Nat)
  | zero
  | callerDefault (tag : Nat)
deriving DecidableEq, Repr

/-- `GFFStruct::getDouble`: default on a missing label, the reinterpreted
inline word on a float field, an 8-byte out-of-band read on a double field,
a type error otherwise. -/
def getDouble (h : Header) (m : FieldMap) (s : Stream) (lbl : List Nat)
    (d : GFFDouble) : Except GFFError (GFFDouble × Stream) :=
  match findField m lbl with
  | Option.none => .ok (d, s)
  | some f =>
    match f.type with
    | .float => .ok (.ofFloatBits (f.data % 2 ^ 32), s)
    | .double =>
      match (getData h f s).readUint64LE with
      | .error e => .error e
      | .ok (bits, s1) => .ok (.ofDoubleBits bits, s1)
    | _ => .error .notDoubleType

/-- `GFFStruct::getVector` (both the float and the double overload read the
same three little-endian IEEE-754 singles; the patterns are kept as raw
bits).  The three reference parameters are passed in and either returned
untouched (missing label) or overwritten with the payload. -/
def getVector (h : Header) (m : FieldMap) (s : Stream) (lbl : List Nat)
    (x y z : Nat) : Except GFFError ((Nat × Nat × Nat) × Stream) :=
  match findField m lbl with
  | Option.none => .ok ((x, y, z), s)
  | some f =>
    if f.type = .vector then
      match (getData h f s).readUint32LE with
      | .error e => .error e
      | .ok (x1, s1) =>
        match s1.readUint32LE with
        | .error e => .error e
        | .ok (y1, s2) =>
          match s2.readUint32LE with
          | .error e => .error e
          | .ok (z1, s3) => .ok ((x1, y1, z1), s3)
    else .error .notVectorType

/-- `GFFStruct::getOrientation`: as `getVector` but four singles. -/
def getOrientation (h : Header) (m : FieldMap) (s : Stream) (lbl : List Nat)
    (a b c d : Nat) : Except GFFError ((Nat × Nat × Nat × Nat) × Stream) :=
  match findField m lbl with
  | Option.none => .ok ((a, b, c, d), s)
  | some f =>
    if f.type = .orientation then
      match (getData h f s).readUint32LE with
      | .error e => .error e
      | .ok (a1, s1) =>
        match s1.readUint32LE with
        | .error e => .error e
        | .ok (b1, s2) =>
          match s2.readUint32LE with
          | .error e => .error e
          | .ok (c1, s3) =>
            match s3.readUint32LE with
            | .error e => .error e
            | .ok (d1, s4) => .ok ((a1, b1, c1, d1), s4)
    else .error .notOrientationType

/-- `GFFStruct::getLocString`.  The out-of-band payload is a uint32 byte size
followed by that many bytes, handed to `LocString::readLocString` through a
bounded substream.  Modelled from the spec: `LocString::readLocString` is not
among the sources; the spec describes the payload as "read N bytes at current
position, return an opaque localized-string handle", so the handle is the
payload's byte list.  The `LocString &` reference parameter is passed in and
returned untouched on a missing label. -/
def getLocString (h : Header) (m : FieldMap) (s : Stream) (lbl : List Nat)
    (str : List Nat) : Except GFFError (List Nat × Stream) :=
  match findField m lbl with
  | Option.none => .ok (str, s)
  | some f =>
    if f.type = .locString then
      match (getData h f s).readUint32LE with
      | .error e => .error e
      | .ok (size, s1) =>
        match readBytes s1 size with
        | .error e => .error e
        | .ok (payload, s2) => .ok (payload, s2)
    else .error .notLocStringType

/-- `GFFStruct::getData(const Common::UString &)`, the void-blob accessor:
a null pointer (here `none`) on a missing label, the size-prefixed raw
payload on a void field, a type error otherwise. -/
def getDataByName (h : Header) (m : FieldMap) (s : Stream) (lbl : List Nat) :
    Except GFFError (Option (List Nat) × Stream) :=
  match findField m lbl with
  | Option.none => .ok (Option.none, s)
  | some f =>
    if f.type = .void then
      match (getData h f s).readUint32LE with
      | .error e => .error e
      | .ok (size, s1) =>
        match readBytes s1 size with
        | .error e => .error e
        | .ok (payload, s2) => .ok (some payload, s2)
    else .error .notDataType

/-- A `Common::UString` as `GFFStruct::getString` produces it.  Text read
from the file is a byte list; the `sprintf` renderings of the numeric
cross-category coercions are kept symbolic, tagged with the value they
format (`%lu` of `getUint`, `%ld` of `getSint`, `%lf` of `getDouble`,
slash-separated `%f` components for vector and orientation). -/
inductive GFFValueString
  | text (bytes : List Nat)
  | fmtUint (v : Nat)
  | fmtSint (v : Int)
  | fmtDouble (v : GFFDouble)
  | fmtVector (x y z : Nat)
  | fmtOrientation (a b c d : Nat)
  | callerDefault (tag : Nat)
deriving DecidableEq, Repr

/-- `GFFStruct::getString`: default on a missing label; length-prefixed text
for exoString (uint32 length) and resRef (uint8 length); the one deliberate
cross-category coercion formats the unsigned integers via `getUint`, the
signed ones via `getSint`, float/double via `getDouble`, and vector and
orientation as slash-separated components; everything else is a type
error. -/
def getString (h : Header) (m : FieldMap) (s : Stream) (lbl : List Nat)
    (d : GFFValueString) : Except GFFError (GFFValueString × Stream) :=
  match findField m lbl with
  | Option.none => .ok (d, s)
  | some f =>
    match f.type with
    | .exoString =>
      match (getData h f s).readUint32LE with
      | .error e => .error e
      | .ok (len, s1) =>
        match readStringFixed s1 len with
        | .error e => .error e
        | .ok (bs, s2) => .ok (.text bs, s2)
    | .resRef =>
      match (getData h f s).readByte with
      | .error e => .error e
      | .ok (len, s1) =>
        match readStringFixed s1 len with
        | .error e => .error e
        | .ok (bs, s2) => .ok (.text bs, s2)
    | .byte | .uint16 | .uint32 | .uint64 | .strRef =>
      match getUint h m s lbl 0 with
      | .error e => .error e
      | .ok (v, s1) => .ok (.fmtUint v, s1)
    | .char | .sint16 | .sint32 | .sint64 =>
      match getSint h m s lbl 0 with
      | .error e => .error e
      | .ok (v, s1) => .ok (.fmtSint v, s1)
    | .float | .double =>
      match getDouble h m s lbl .zero with
      | .error e => .error e
      | .ok (v, s1) => .ok (.fmtDouble v, s1)
    | .vector =>
      match getVector h m s lbl 0 0 0 with
      | .error e => .error e
      | .ok ((x, y, z), s1) => .ok (.fmtVector x y z, s1)
    | .orientation =>
      match getOrientation h m s lbl 0 0 0 0 with
      | .error e => .error e
      | .ok ((a, b, c, d1), s1) => .ok (.fmtOrientation a b c d1, s1)
    | _ => .error .notStringType

/-- `GFFFile::getStruct(uint32)`: the struct-array slot at that index, with
the `assert(i < _structs.size())`; a struct reference is its arena index. -/
def getStructByIndex (structCount : Nat) (i : Nat) : Option Nat :=
  if i < structCount then some i else Option.none

/-- `GFFStruct::getStruct`: no default exists, so a missing label is the
"No such field" error; a non-struct type is a type error; otherwise the
inline word is a direct struct-array index. -/
def getStruct (structCount : Nat) (m : FieldMap) (lbl : List Nat) :
    Except GFFError Nat :=
  match findField m lbl with
  | Option.none => .error .noSuchField
  | some f =>
    if f.type = .strct then
      match getStructByIndex structCount f.data with
      | some i => .ok i
      | Option.none => .error .assertFailed
    else .error .notStructType

/-!
List decoding (`GFFFile::readLists`).  The list-indices table is a flat
word array; scanning from word 0, each run is a count word `n` followed by
`n` struct indices, and the scan resumes right after them.  The C++ makes
two passes: a counting pass that throws "List indices broken" when
`i + n > rawLists.size()`, and a building pass guarded by
`assert((i + n) <= rawLists.size())` evaluated after `i` has already been
incremented past the count word.  Both loops advance `i` by at least one
word per iteration, so `rawLists.size()` iterations always suffice; the
recursions below take that iteration count as explicit structural fuel
(the zero-fuel fallthrough is unreachable from `readListsWords`). -/

/-- Counting pass of `GFFFile::readLists`: number of runs, or the
"List indices broken" error when a run's position plus its count word
exceeds the table's word count. -/
def countRunsAux (raw : List Nat) : Nat → Nat → Except GFFError Nat
  | 0, _ => .ok 0
  | fuel + 1, i =>
    if i < raw.length then
      if i + raw.getD i 0 > raw.length then .error .listIndicesBroken
      else
        match countRunsAux raw fuel (i + raw.getD i 0 + 1) with
        | .error e => .error e
        | .ok c => .ok (c + 1)
    else .ok 0

/-- Building pass of `GFFFile::readLists`: the runs in scan order, each as
its starting word offset (the key recorded in `_listOffsetToIndex`) paired
with its struct indices.  The in-loop `assert((i + n) <= rawLists.size())`
(checked after `i` passed the count word) becomes the `assertFailed`
error. -/
def buildRunsAux (raw : List Nat) : Nat → Nat → Except GFFError (List (Nat × List Nat))
  | 0, _ => .ok []
  | fuel + 1, i =>
    if i < raw.length then
      if i + 1 + raw.getD i 0 ≤ raw.length then
        match buildRunsAux raw fuel (i + 1 + raw.getD i 0) with
        | .error e => .error e
        | .ok rest => .ok ((i, (raw.drop (i + 1)).take (raw.getD i 0)) :: rest)
      else .error .assertFailed
    else .ok []

/-- `GFFFile::readLists` over the raw word table: the counting pass
followed by the building pass. -/
def readListsWords (raw : List Nat) : Except GFFError (List (Nat × List Nat)) :=
  match countRunsAux raw raw.length 0 with
  | .error e => .error e
  | .ok _ => buildRunsAux raw raw.length 0

/-- The word offsets at which the scan of the list-indices table starts a
run (the positions the counting pass visits, violating or not). -/
def runPositionsAux (raw : List Nat) : Nat → Nat → List Nat
  | 0, _ => []
  | fuel + 1, i =>
    if i < raw.length then i :: runPositionsAux raw fuel (i + raw.getD i 0 + 1)
    else []

/-- `GFFFile::getList(uint32)`: the decoded list whose run starts at the
given word offset, via the stored offset-to-index map; `none` models the
failing asserts for an offset that is no run's start or out of range. -/
def getListByWordOffset (runs : List (Nat × List Nat)) (w : Nat) :
    Option (List Nat) :=
  match runs.find? (fun pr => pr.1 == w) with
  | some pr => some pr.2
  | Option.none => Option.none

/-- `GFFStruct::getList`: no default exists, so a missing label is the
"No such field" error; a non-list type is a type error; otherwise the inline
word is a byte offset into the list-indices table, divided by 4 to obtain
the word offset looked up in the offset-to-index map. -/
def getList (runs : List (Nat × List Nat)) (m : FieldMap) (lbl : List Nat) :
    Except GFFError (List Nat) :=
  match findField m lbl with
  | Option.none => .error .noSuchField
  | some f =>
    if f.type = .list then
      match getListByWordOffset runs (f.data / 4) with
      | some l => .ok l
      | Option.none => .error .assertFailed
    else .error .notListType

/-!
Struct field resolution (`GFFStruct::load`, `readField`, `readFields`).
The shared stream is the byte buffer `data`; every seek in this code is
absolute, so the reads below build their `Stream` directly at the seek
target. -/

/-- A struct-table entry: programmer id, field index, field count
(`GFFStruct::_id`, `_fieldIndex`, `_fieldCount`). -/
structure StructEntry where
  id : Nat
  fieldIndex : Nat
  fieldCount : Nat
deriving DecidableEq, Repr

/-- `GFFStruct::readLabel`: seek to `labelOffset + index * 16` and read a
fixed 16-byte label, trimmed at the first zero byte. -/
def readLabel (h : Header) (data : List Nat) (index : Nat) :
    Except GFFError (List Nat) :=
  match readStringFixed ⟨data, h.labelOffset + index * 16⟩ 16 with
  | .error e => .error e
  | .ok (lbl, _) => .ok lbl

/-- `GFFStruct::readField`: reject a field index strictly greater than the
header's field count, then read the 12-byte field record (type, label
index, data word) at `fieldOffset + index * 12`, resolve the label, and
store the field in the cache. -/
def readField (h : Header) (data : List Nat) (m : FieldMap) (index : Nat) :
    Except GFFError FieldMap :=
  if index > h.fieldCount then
    .error (.fieldIndexOutOfRange index h.fieldCount)
  else
    match Stream.readUint32LE ⟨data, h.fieldOffset + index * 12⟩ with
    | .error e => .error e
    | .ok (ftype, s1) =>
      match s1.readUint32LE with
      | .error e => .error e
      | .ok (flabel, s2) =>
        match s2.readUint32LE with
        | .error e => .error e
        | .ok (fdata, _) =>
          match readLabel h data flabel with
          | .error e => .error e
          | .ok lbl => .ok (insertField m lbl ⟨FieldType.ofCode ftype, fdata⟩)

/-- `GFFStruct::readIndices`: read `count` 32-bit field-table indices. -/
def readIndices (s : Stream) : Nat → Except GFFError (List Nat × Stream)
  | 0 => .ok ([], s)
  | n + 1 =>
    match s.readUint32LE with
    | .error e => .error e
    | .ok (v, s1) =>
      match readIndices s1 n with
      | .error e => .error e
      | .ok (vs, s2) => .ok (v :: vs, s2)

/-- The loop body of `GFFStruct::readFields`: read one field record per
index, accumulating the cache. -/
def readFieldsLoop (h : Header) (data : List Nat) (m : FieldMap) :
    List Nat → Except GFFError FieldMap
  | [] => .ok m
  | i :: rest =>
    match readField h data m i with
    | .error e => .error e
    | .ok m1 => readFieldsLoop h data m1 rest

/-- `GFFStruct::readFields`: reject a starting index strictly greater than
the header's field-indices count, then read `count` indices at
`fieldIndicesOffset + index` and each indexed field record in turn. -/
def readFields (h : Header) (data : List Nat) (m : FieldMap)
    (index count : Nat) : Except GFFError FieldMap :=
  if index > h.fieldIndicesCount then
    .error (.fieldIndicesOutOfRange index h.fieldIndicesCount)
  else
    match readIndices ⟨data, h.fieldIndicesOffset + index⟩ count with
    | .error e => .error e
    | .ok (indices, _) => readFieldsLoop h data m indices

/-- `GFFStruct::load`: a no-op when the cache is already populated;
otherwise one direct field record when the struct has exactly one field, a
run of field indices when it has more, and nothing at all for a fieldless
struct. -/
def loadStruct (h : Header) (data : List Nat) (st : StructEntry)
    (cache : FieldMap) : Except GFFError FieldMap :=
  if cache.isEmpty = false then .ok cache
  else if st.fieldCount = 1 then readField h data [] st.fieldIndex
  else if st.fieldCount > 1 then readFields h data [] st.fieldIndex st.fieldCount
  else .ok cache

/-!  Concrete scenarios used by the theorems below. -/

/-- A header whose twelve words are all zero. -/
def zeroHdr : Header := ⟨0, 0, 0, 0, 0, 0, 0, 0, 0, 0, 0, 0⟩

/-- A strRef field whose out-of-band payload begins with the size prefix 8
(not the required 4), followed by the uint32 value 42. -/
def strRefHdr : Header := ⟨0, 0, 0, 0, 0, 0, 0, 8, 0, 0, 0, 0⟩

/-- Field data for the bad-prefix strRef scenario: size prefix 8, value 42,
both little-endian uint32. -/
def strRefData : List Nat := [8, 0, 0, 0, 42, 0, 0, 0]

/-- A cache holding one strRef field at inline offset 0 under label "A". -/
def strRefMap : FieldMap := [([65], ⟨.strRef, 0⟩)]

/-- C1: the spec requires getUint and getSint to fail when a strref field's
4-byte size prefix is not exactly 4, and the check is plainly intended at
gfffile.cpp:371 and :408 — but the code constructs
`Common::Exception("StrRef field with invalid size (%d)", size)` without
`throw`ing it, so with a size prefix of 8 both accessors return the uint32
after the prefix (42) without any error. -/
theorem strRef_bad_size_not_rejected :
    getUint strRefHdr strRefMap ⟨strRefData, 0⟩ [65] 0 =
      .ok (42, ⟨strRefData, 8⟩)
  ∧ getSint strRefHdr strRefMap ⟨strRefData, 0⟩ [65] 0 =
      .ok ((42 : Int), ⟨strRefData, 8⟩) := by
  decide

/-- Header placing the field-data table at byte offset 20. -/
def extHdr : Header := ⟨0, 0, 0, 0, 0, 0, 20, 8, 0, 0, 0, 0⟩

/-- Forty zero bytes: enough field data for one uint64 payload at offset
20. -/
def extData : List Nat := List.replicate 40 0

/-- A cache holding one uint64 field at inline offset 0 under label "A". -/
def extMap : FieldMap := [([65], ⟨.uint64, 0⟩)]

/-- C2 counterexample: reading a uint64 field's out-of-band payload moves
the shared source from position 0 to 28 (fieldDataOffset 20 + inline offset
0 + 8 bytes read); the position before the call is not restored. -/
theorem extended_read_moves_position :
    getUint extHdr extMap ⟨extData, 0⟩ [65] 7 = .ok (0, ⟨extData, 28⟩)
  ∧ (Stream.mk extData 28).pos ≠ (Stream.mk extData 0).pos := by
  decide

/-- C2 amended: an extended read performs no save/restore; `getData` seeks
the shared source absolutely to `fieldDataOffset + inlineData`, so the
stream it reads from — and hence the read's outcome — is independent of the
source's position before the call, while the position after the call is the
seek target plus the bytes consumed rather than the original position. -/
theorem getData_absolute (h : Header) (f : Field) (s : Stream)
    (hx : f.extended = true) :
    getData h f s = ⟨s.data, h.fieldDataOffset + f.data⟩
  ∧ ∀ p, getData h f ⟨s.data, p⟩ = getData h f s := by
  exact ⟨rfl, fun _ => rfl⟩

/-- Witness for `getData_absolute` at a concrete extended field. -/
theorem getData_absolute_witness :
    (Field.mk .uint64 3).extended = true
  ∧ getData extHdr ⟨.uint64, 3⟩ ⟨extData, 5⟩ = ⟨extData, 23⟩ :=
  ⟨by decide, (getData_absolute extHdr ⟨.uint64, 3⟩ ⟨extData, 5⟩ (by decide)).1⟩

/-- A cache holding one byte-typed field with inline word 0xFF. -/
def byteFFMap : FieldMap := [([65], ⟨.byte, 255⟩)]

/-- C3 counterexample: on a byte field (an unsigned category) with inline
word 0xFF, getUint zero-extends to 255 but getSint casts through `int8` and
sign-extends to -1, whose uint64 reinterpretation is 2^64 - 1, so
`getUint(f) = (uint64) getSint(f)` fails. -/
theorem byte_widening_disagrees :
    getUint zeroHdr byteFFMap ⟨[], 0⟩ [65] 0 = .ok (255, ⟨[], 0⟩)
  ∧ getSint zeroHdr byteFFMap ⟨[], 0⟩ [65] 0 = .ok (-1, ⟨[], 0⟩)
  ∧ toUint64 (-1) ≠ 255 := by
  decide

/-- C8: decoding the list-indices word table [2, 0, 1, 1, 2] yields exactly
two lists in scan order — the run at word offset 0 references structs 0 and
1 in order, the run at word offset 3 (byte offset 12) references struct 2 —
every referenced struct index is below the struct-array size 3, and both the
offset-to-index lookup (keyed by byte offset divided by 4) and the getList
accessor of list fields storing byte offsets 0 and 12 resolve to those
lists. -/
theorem example_list_table_decode :
    readListsWords [2, 0, 1, 1, 2] = .ok [(0, [0, 1]), (3, [2])]
  ∧ getListByWordOffset [(0, [0, 1]), (3, [2])] (0 / 4) = some [0, 1]
  ∧ getListByWordOffset [(0, [0, 1]), (3, [2])] (12 / 4) = some [2]
  ∧ getList [(0, [0, 1]), (3, [2])]
      [([65], ⟨.list, 0⟩), ([66], ⟨.list, 12⟩)] [65] = .ok [0, 1]
  ∧ getList [(0, [0, 1]), (3, [2])]
      [([65], ⟨.list, 0⟩), ([66], ⟨.list, 12⟩)] [66] = .ok [2]
  ∧ ∀ pr ∈ [(0, [0, 1]), (3, [2])], ∀ j ∈ pr.2, j < 3 := by
  decide

/-- A one-field cache for probing an accessor against a given field. -/
def probeMap (t : FieldType) (d : Nat) : FieldMap := [([65], ⟨t, d⟩)]

/-- C3 amended: on the unsigned small-integer categories (byte, uint16,
uint32) getUint zero-extends the stored `w`-bit value while getSint casts it
through the signed type of the same width and sign-extends, so
`getUint(f) = (uint64) getSint(f)` holds exactly when the stored value's top
bit at that width is clear; on the signed categories (char, sint16, sint32)
both accessors sign-extend through a 64-bit signed intermediate, the
widening is bit-exact, and in particular a sint16 field with inline word
0xFFFF yields getSint = -1. -/
theorem small_int_widening (s : Stream) (d : Nat) :
    (getUint zeroHdr (probeMap .byte d) s [65] 0 = .ok (d % 2 ^ 8, s)
      ∧ getSint zeroHdr (probeMap .byte d) s [65] 0 =
          .ok (toSigned 8 (d % 2 ^ 8), s)
      ∧ (d % 2 ^ 8 = toUint64 (toSigned 8 (d % 2 ^ 8)) ↔ d % 2 ^ 8 < 2 ^ 7))
  ∧ (getUint zeroHdr (probeMap .uint16 d) s [65] 0 = .ok (d % 2 ^ 16, s)
      ∧ getSint zeroHdr (probeMap .uint16 d) s [65] 0 =
          .ok (toSigned 16 (d % 2 ^ 16), s)
      ∧ (d % 2 ^ 16 = toUint64 (toSigned 16 (d % 2 ^ 16)) ↔
          d % 2 ^ 16 < 2 ^ 15))
  ∧ (getUint zeroHdr (probeMap .uint32 d) s [65] 0 = .ok (d % 2 ^ 32, s)
      ∧ getSint zeroHdr (probeMap .uint32 d) s [65] 0 =
          .ok (toSigned 32 (d % 2 ^ 32), s)
      ∧ (d % 2 ^ 32 = toUint64 (toSigned 32 (d % 2 ^ 32)) ↔
          d % 2 ^ 32 < 2 ^ 31))
  ∧ (getUint zeroHdr (probeMap .char d) s [65] 0 =
        .ok (toUint64 (toSigned 8 (d % 2 ^ 8)), s)
      ∧ getSint zeroHdr (probeMap .char d) s [65] 0 =
          .ok (toSigned 8 (d % 2 ^ 8), s))
  ∧ (getUint zeroHdr (probeMap .sint16 d) s [65] 0 =
        .ok (toUint64 (toSigned 16 (d % 2 ^ 16)), s)
      ∧ getSint zeroHdr (probeMap .sint16 d) s [65] 0 =
          .ok (toSigned 16 (d % 2 ^ 16), s))
  ∧ (getUint zeroHdr (probeMap .sint32 d) s [65] 0 =
        .ok (toUint64 (toSigned 32 (d % 2 ^ 32)), s)
      ∧ getSint zeroHdr (probeMap .sint32 d) s [65] 0 =
          .ok (toSigned 32 (d % 2 ^ 32), s))
  ∧ getSint zeroHdr (probeMap .sint16 65535) s [65] 0 = .ok (-1, s) := by
  have hiff8 : d % 2 ^ 8 = toUint64 (toSigned 8 (d % 2 ^ 8)) ↔
      d % 2 ^ 8 < 2 ^ 7 := by
    unfold toUint64 toSigned
    split <;> omega
  have hiff16 : d % 2 ^ 16 = toUint64 (toSigned 16 (d % 2 ^ 16)) ↔
      d % 2 ^ 16 < 2 ^ 15 := by
    unfold toUint64 toSigned
    split <;> omega
  have hiff32 : d % 2 ^ 32 = toUint64 (toSigned 32 (d % 2 ^ 32)) ↔
      d % 2 ^ 32 < 2 ^ 31 := by
    unfold toUint64 toSigned
    split <;> omega
  refine ⟨⟨rfl, rfl, hiff8⟩, ⟨rfl, rfl, hiff16⟩, ⟨rfl, rfl, hiff32⟩,
    ⟨rfl, rfl⟩, ⟨rfl, rfl⟩, ⟨rfl, rfl⟩, rfl⟩

/-- C5: when the requested label is absent from the struct's field map, the
char, uint, sint, bool, double and string accessors return the
caller-supplied default without error, while getStruct and getList raise
the "No such field" error. -/
theorem missing_label_defaults (h : Header) (m : FieldMap) (s : Stream)
    (lbl : List Nat) (sc : Nat) (runs : List (Nat × List Nat))
    (hm : findField m lbl = Option.none)
    (cd ud : Nat) (sd : Int) (bd : Bool) (dd : GFFDouble)
    (td : GFFValueString) :
    getChar h m s lbl cd = .ok (cd, s)
  ∧ getUint h m s lbl ud = .ok (ud, s)
  ∧ getSint h m s lbl sd = .ok (sd, s)
  ∧ getBool h m s lbl bd = .ok (bd, s)
  ∧ getDouble h m s lbl dd = .ok (dd, s)
  ∧ getString h m s lbl td = .ok (td, s)
  ∧ getStruct sc m lbl = .error .noSuchField
  ∧ getList runs m lbl = .error .noSuchField := by
  refine ⟨?_, ?_, ?_, ?_, ?_, ?_, ?_, ?_⟩
  · simp [getChar, hm]
  · simp [getUint, hm]
  · simp [getSint, hm]
  · cases bd <;> simp [getBool, getUint, hm]
  · simp [getDouble, hm]
  · simp [getString, hm]
  · simp [getStruct, hm]
  · simp [getList, hm]

/-- Witness for `missing_label_defaults` on an empty field map. -/
theorem missing_label_defaults_witness :
    findField [] [65] = Option.none
  ∧ getUint zeroHdr [] ⟨[], 0⟩ [65] 9 = .ok (9, ⟨[], 0⟩)
  ∧ getStruct 0 [] [65] = .error .noSuchField :=
  ⟨rfl,
    (missing_label_defaults zeroHdr [] ⟨[], 0⟩ [65] 0 [] rfl 0 9 0 false
      .zero (.callerDefault 0)).2.1,
    (missing_label_defaults zeroHdr [] ⟨[], 0⟩ [65] 0 [] rfl 0 9 0 false
      .zero (.callerDefault 0)).2.2.2.2.2.2.1⟩

/-- C9: getVector, getOrientation and getLocString take no caller-supplied
default; on a label absent from the struct's field map they return without
error, leaving their by-reference output parameters (the float components,
the LocString) and the stream exactly as they were. -/
theorem missing_label_reference_outputs (h : Header) (m : FieldMap)
    (s : Stream) (lbl : List Nat) (hm : findField m lbl = Option.none)
    (x y z a b c d : Nat) (str : List Nat) :
    getVector h m s lbl x y z = .ok ((x, y, z), s)
  ∧ getOrientation h m s lbl a b c d = .ok ((a, b, c, d), s)
  ∧ getLocString h m s lbl str = .ok (str, s) := by
  refine ⟨?_, ?_, ?_⟩
  · simp [getVector, hm]
  · simp [getOrientation, hm]
  · simp [getLocString, hm]

/-- Witness for `missing_label_reference_outputs` on an empty field map. -/
theorem missing_label_reference_outputs_witness :
    findField [] [66] = Option.none
  ∧ getVector zeroHdr [] ⟨[], 3⟩ [66] 1 2 3 = .ok ((1, 2, 3), ⟨[], 3⟩)
  ∧ getLocString zeroHdr [] ⟨[], 3⟩ [66] [7] = .ok ([7], ⟨[], 3⟩) :=
  ⟨rfl,
    (missing_label_reference_outputs zeroHdr [] ⟨[], 3⟩ [66] rfl 1 2 3 0 0 0 0
      [7]).1,
    (missing_label_reference_outputs zeroHdr [] ⟨[], 3⟩ [66] rfl 1 2 3 0 0 0 0
      [7]).2.2⟩

/-!  A probing scenario for the per-type accessor policy: one field of the
probed type with inline word 0, a field-data table of 64 zero bytes at
offset 0 (ample for every extended payload), one struct slot, and one
decoded list at word offset 0. -/

/-- Header for the accessor-policy probe. -/
def probeHdr : Header := ⟨0, 1, 0, 0, 0, 0, 0, 64, 0, 0, 0, 0⟩

/-- Sixty-four zero bytes of field data. -/
def probeData : List Nat := List.replicate 64 0

/-- The probe stream at position 0. -/
def probeS : Stream := ⟨probeData, 0⟩

/-- The field categories `getUint`/`getSint` (and hence `getBool`)
accept. -/
def intCategories : List FieldType :=
  [.byte, .uint16, .uint32, .char, .sint16, .sint32, .uint64, .sint64,
   .strRef]

/-- The field categories `getString` renders instead of failing: the two
text types plus the deliberate cross-category coercions (integers, reals,
vector, orientation). -/
def stringableCategories : List FieldType :=
  [.exoString, .resRef, .byte, .uint16, .uint32, .uint64, .strRef,
   .char, .sint16, .sint32, .sint64, .float, .double, .vector, .orientation]

/-- C6: for a field present under the requested label, every accessor whose
category disagrees with the stored type raises its hard type-mismatch error
and every agreeing accessor succeeds — for each of the twenty stored types;
the single exception is getString, which succeeds on integer, real, vector
and orientation fields as well, rendering them (decimal via getUint/getSint,
fixed-notation via getDouble, slash-separated components for
vector/orientation) as the trailing concrete equations show. -/
theorem type_mismatch_policy :
    (∀ t : FieldType,
      ((getChar probeHdr (probeMap t 0) probeS [65] 7 = .error .notCharType)
          ↔ t ≠ .char)
    ∧ ((getChar probeHdr (probeMap t 0) probeS [65] 7).isOk = true ↔ t = .char)
    ∧ ((getUint probeHdr (probeMap t 0) probeS [65] 7 = .error .notIntType)
          ↔ t ∉ intCategories)
    ∧ ((getUint probeHdr (probeMap t 0) probeS [65] 7).isOk = true
          ↔ t ∈ intCategories)
    ∧ ((getSint probeHdr (probeMap t 0) probeS [65] 7 = .error .notIntType)
          ↔ t ∉ intCategories)
    ∧ ((getSint probeHdr (probeMap t 0) probeS [65] 7).isOk = true
          ↔ t ∈ intCategories)
    ∧ ((getBool probeHdr (probeMap t 0) probeS [65] true = .error .notIntType)
          ↔ t ∉ intCategories)
    ∧ ((getBool probeHdr (probeMap t 0) probeS [65] true).isOk = true
          ↔ t ∈ intCategories)
    ∧ ((getDouble probeHdr (probeMap t 0) probeS [65] .zero =
            .error .notDoubleType) ↔ t ∉ [FieldType.float, .double])
    ∧ ((getDouble probeHdr (probeMap t 0) probeS [65] .zero).isOk = true
          ↔ t ∈ [FieldType.float, .double])
    ∧ ((getString probeHdr (probeMap t 0) probeS [65] (.callerDefault 0) =
            .error .notStringType) ↔ t ∉ stringableCategories)
    ∧ ((getString probeHdr (probeMap t 0) probeS [65]
            (.callerDefault 0)).isOk = true ↔ t ∈ stringableCategories)
    ∧ ((getLocString probeHdr (probeMap t 0) probeS [65] [] =
            .error .notLocStringType) ↔ t ≠ .locString)
    ∧ ((getLocString probeHdr (probeMap t 0) probeS [65] []).isOk = true
          ↔ t = .locString)
    ∧ ((getDataByName probeHdr (probeMap t 0) probeS [65] =
            .error .notDataType) ↔ t ≠ .void)
    ∧ ((getDataByName probeHdr (probeMap t 0) probeS [65]).isOk = true
          ↔ t = .void)
    ∧ ((getVector probeHdr (probeMap t 0) probeS [65] 0 0 0 =
            .error .notVectorType) ↔ t ≠ .vector)
    ∧ ((getVector probeHdr (probeMap t 0) probeS [65] 0 0 0).isOk = true
          ↔ t = .vector)
    ∧ ((getOrientation probeHdr (probeMap t 0) probeS [65] 0 0 0 0 =
            .error .notOrientationType) ↔ t ≠ .orientation)
    ∧ ((getOrientation probeHdr (probeMap t 0) probeS [65] 0 0 0 0).isOk =
          true ↔ t = .orientation)
    ∧ ((getStruct 1 (probeMap t 0) [65] = .error .notStructType)
          ↔ t ≠ .strct)
    ∧ ((getStruct 1 (probeMap t 0) [65]).isOk = true ↔ t = .strct)
    ∧ ((getList [(0, [])] (probeMap t 0) [65] = .error .notListType)
          ↔ t ≠ .list)
    ∧ ((getList [(0, [])] (probeMap t 0) [65]).isOk = true ↔ t = .list))
  ∧ getString probeHdr (probeMap .uint32 9) probeS [65] (.callerDefault 0) =
      .ok (.fmtUint 9, probeS)
  ∧ getString probeHdr (probeMap .sint32 4294967295) probeS [65]
      (.callerDefault 0) = .ok (.fmtSint (-1), probeS)
  ∧ getString probeHdr (probeMap .float 5) probeS [65] (.callerDefault 0) =
      .ok (.fmtDouble (.ofFloatBits 5), probeS)
  ∧ getString probeHdr (probeMap .vector 0) probeS [65] (.callerDefault 0) =
      .ok (.fmtVector 0 0 0, ⟨probeData, 12⟩)
  ∧ getString probeHdr (probeMap .orientation 0) probeS [65]
      (.callerDefault 0) = .ok (.fmtOrientation 0 0 0 0, ⟨probeData, 16⟩) := by
  refine ⟨?_, by decide, by decide, by decide, by decide, by decide⟩
  intro t
  refine ⟨?_, ?_, ?_, ?_, ?_, ?_, ?_, ?_, ?_, ?_, ?_, ?_, ?_, ?_, ?_, ?_,
    ?_, ?_, ?_, ?_, ?_, ?_, ?_, ?_⟩ <;> revert t <;> decide

/-- Inserting into the cache always leaves it non-empty. -/
theorem insertField_isEmpty (m : FieldMap) (lbl : List Nat) (f : Field) :
    (insertField m lbl f).isEmpty = false := by
  cases m with
  | nil => rfl
  | cons a rest =>
    obtain ⟨k, g⟩ := a
    simp only [insertField]
    split <;> rfl

/-- A successful `readField` leaves the cache non-empty: it always inserts
the field it read. -/
theorem readField_ok_isEmpty (h : Header) (data : List Nat) (m : FieldMap)
    (i : Nat) (m2 : FieldMap) (hok : readField h data m i = .ok m2) :
    m2.isEmpty = false := by
  unfold readField at hok
  split at hok
  · cases hok
  · split at hok
    · cases hok
    · split at hok
      · cases hok
      · split at hok
        · cases hok
        · split at hok
          · cases hok
          · cases hok
            exact insertField_isEmpty m _ _

/-- A successful `readIndices` returns exactly as many indices as asked. -/
theorem readIndices_ok_length (n : Nat) : ∀ (s : Stream) (l : List Nat)
    (s2 : Stream), readIndices s n = .ok (l, s2) → l.length = n := by
  induction n with
  | zero =>
    intro s l s2 hok
    cases hok
    rfl
  | succ k ih =>
    intro s l s2 hok
    unfold readIndices at hok
    split at hok
    · cases hok
    · split at hok
      · cases hok
      · cases hok
        simp only [List.length_cons]
        rename_i v s1 vs s3 heq2
        rw [ih _ _ _ heq2]

/-- The `readFields` loop keeps a non-empty cache non-empty, and makes the
cache non-empty whenever it reads at least one field. -/
theorem readFieldsLoop_ok_isEmpty (h : Header) (data : List Nat) :
    ∀ (indices : List Nat) (m m2 : FieldMap),
      (m.isEmpty = false ∨ indices ≠ []) →
      readFieldsLoop h data m indices = .ok m2 → m2.isEmpty = false := by
  intro indices
  induction indices with
  | nil =>
    intro m m2 hne hok
    cases hok
    rcases hne with h1 | h1
    · exact h1
    · exact absurd rfl h1
  | cons i rest ih =>
    intro m m2 hne hok
    unfold readFieldsLoop at hok
    split at hok
    · cases hok
    · rename_i m1 heq
      exact ih m1 m2 (Or.inl (readField_ok_isEmpty h data m i m1 heq)) hok

/-- C7: `GFFStruct::load` is idempotent.  Whatever cache a successful call
produces — the populated cache of a first call on an empty one, or the
untouched cache of a redundant call — a further call is a no-op returning
that cache unchanged: the load-then-check-`_fields.empty()` guard makes any
number of same-thread calls safe. -/
theorem load_idempotent (h : Header) (data : List Nat) (st : StructEntry)
    (cache cache2 : FieldMap)
    (h1 : loadStruct h data st cache = .ok cache2) :
    loadStruct h data st cache2 = .ok cache2 := by
  by_cases hce : cache.isEmpty = false
  · unfold loadStruct at h1
    rw [if_pos hce] at h1
    cases h1
    unfold loadStruct
    rw [if_pos hce]
  · by_cases hfc1 : st.fieldCount = 1
    · unfold loadStruct at h1
      rw [if_neg hce, if_pos hfc1] at h1
      have hk := readField_ok_isEmpty h data [] st.fieldIndex cache2 h1
      unfold loadStruct
      rw [if_pos hk]
    · by_cases hfc2 : st.fieldCount > 1
      · unfold loadStruct at h1
        rw [if_neg hce, if_neg hfc1, if_pos hfc2] at h1
        unfold readFields at h1
        split at h1
        · cases h1
        · split at h1
          · cases h1
          · rename_i indices s2 heq
            have hlen := readIndices_ok_length st.fieldCount _ _ _ heq
            have hnil : indices ≠ [] := by
              intro hn
              rw [hn] at hlen
              simp at hlen
              omega
            have hk := readFieldsLoop_ok_isEmpty h data indices [] cache2
              (Or.inr hnil) h1
            unfold loadStruct
            rw [if_pos hk]
      · unfold loadStruct at h1
        rw [if_neg hce, if_neg hfc1, if_neg hfc2] at h1
        cases h1
        unfold loadStruct
        rw [if_neg hce, if_neg hfc1, if_neg hfc2]

/-- Header for the idempotence witness: a one-field field table at offset 0
and a label table at offset 12. -/
def loadHdr : Header := ⟨0, 0, 0, 1, 12, 1, 0, 0, 0, 0, 0, 0⟩

/-- File bytes for the idempotence witness: the 12-byte field record
(type 0 = byte, label index 0, data word 5) followed by the 16-byte label
"AB". -/
def loadData : List Nat :=
  [0, 0, 0, 0, 0, 0, 0, 0, 5, 0, 0, 0,
   65, 66, 0, 0, 0, 0, 0, 0, 0, 0, 0, 0, 0, 0, 0, 0]

/-- Witness for `load_idempotent`: a first call on the empty cache
populates it with the one decoded field, and the repeated call returns that
cache unchanged. -/
theorem load_idempotent_witness :
    loadStruct loadHdr loadData ⟨0, 0, 1⟩ [([65, 66], ⟨.byte, 5⟩)] =
      .ok [([65, 66], ⟨.byte, 5⟩)] :=
  load_idempotent loadHdr loadData ⟨0, 0, 1⟩ [] [([65, 66], ⟨.byte, 5⟩)]
    (by decide)

/-!  Error classification: every failure of the primitive stream reads is
the short-read error, so the two bounds-check errors of `readField` and
`readFields` can arise nowhere else. -/

/-- A failing `readByte` fails with the short-read error. -/
theorem readByte_err (s : Stream) (e : GFFError)
    (he : s.readByte = .error e) : e = .shortRead := by
  unfold Stream.readByte at he
  split at he
  · cases he
  · cases he
    rfl

/-- A failing `readUint16LE` fails with the short-read error. -/
theorem readUint16LE_err (s : Stream) (e : GFFError)
    (he : s.readUint16LE = .error e) : e = .shortRead := by
  unfold Stream.readUint16LE at he
  split at he
  · rename_i e1 heq
    cases he
    exact readByte_err _ _ heq
  · split at he
    · rename_i e1 heq
      cases he
      exact readByte_err _ _ heq
    · cases he

/-- A failing `readUint32LE` fails with the short-read error. -/
theorem readUint32LE_err (s : Stream) (e : GFFError)
    (he : s.readUint32LE = .error e) : e = .shortRead := by
  unfold Stream.readUint32LE at he
  split at he
  · rename_i e1 heq
    cases he
    exact readUint16LE_err _ _ heq
  · split at he
    · rename_i e1 heq
      cases he
      exact readUint16LE_err _ _ heq
    · cases he

/-- A failing `readBytes` fails with the short-read error. -/
theorem readBytes_err (n : Nat) : ∀ (s : Stream) (e : GFFError),
    readBytes s n = .error e → e = .shortRead := by
  induction n with
  | zero =>
    intro s e he
    cases he
  | succ k ih =>
    intro s e he
    unfold readBytes at he
    split at he
    · rename_i e1 heq
      cases he
      exact readByte_err _ _ heq
    · split at he
      · rename_i e1 heq
        cases he
        exact ih _ _ heq
      · cases he

/-- A failing `readStringFixed` fails with the short-read error. -/
theorem readStringFixed_err (s : Stream) (n : Nat) (e : GFFError)
    (he : readStringFixed s n = .error e) : e = .shortRead := by
  unfold readStringFixed at he
  split at he
  · rename_i e1 heq
    cases he
    exact readBytes_err n _ _ heq
  · cases he

/-- A failing `readLabel` fails with the short-read error. -/
theorem readLabel_err (h : Header) (data : List Nat) (i : Nat) (e : GFFError)
    (he : readLabel h data i = .error e) : e = .shortRead := by
  unfold readLabel at he
  split at he
  · rename_i e1 heq
    cases he
    exact readStringFixed_err _ _ _ heq
  · cases he

/-- A failing `readField` fails either with the short-read error or with its
own out-of-range error, carrying its own index and the header's field
count. -/
theorem readField_err (h : Header) (data : List Nat) (m : FieldMap)
    (i : Nat) (e : GFFError) (he : readField h data m i = .error e) :
    e = .shortRead ∨ e = .fieldIndexOutOfRange i h.fieldCount := by
  unfold readField at he
  split at he
  · cases he
    exact Or.inr rfl
  · split at he
    · rename_i e1 heq
      cases he
      exact Or.inl (readUint32LE_err _ _ heq)
    · split at he
      · rename_i e1 heq
        cases he
        exact Or.inl (readUint32LE_err _ _ heq)
      · split at he
        · rename_i e1 heq
          cases he
          exact Or.inl (readUint32LE_err _ _ heq)
        · split at he
          · rename_i e1 heq
            cases he
            exact Or.inl (readLabel_err _ _ _ _ heq)
          · cases he

/-- A failing `readFields` loop fails with a short read or with some inner
field index's out-of-range error, never with the field-indices one. -/
theorem readFieldsLoop_err (h : Header) (data : List Nat) :
    ∀ (indices : List Nat) (m : FieldMap) (e : GFFError),
      readFieldsLoop h data m indices = .error e →
      e = .shortRead ∨ ∃ a b, e = .fieldIndexOutOfRange a b := by
  intro indices
  induction indices with
  | nil =>
    intro m e he
    cases he
  | cons i rest ih =>
    intro m e he
    unfold readFieldsLoop at he
    split at he
    · rename_i e1 heq
      cases he
      rcases readField_err h data m i e heq with h1 | h1
      · exact Or.inl h1
      · exact Or.inr ⟨i, h.fieldCount, h1⟩
    · exact ih _ _ he

/-- A failing `readIndices` fails with the short-read error. -/
theorem readIndices_err (n : Nat) : ∀ (s : Stream) (e : GFFError),
    readIndices s n = .error e → e = .shortRead := by
  induction n with
  | zero =>
    intro s e he
    cases he
  | succ k ih =>
    intro s e he
    unfold readIndices at he
    split at he
    · rename_i e1 heq
      cases he
      exact readUint32LE_err _ _ heq
    · split at he
      · rename_i e1 heq
        cases he
        exact ih _ _ heq
      · cases he

/-- C10: the bounds sanity checks reject an index exactly when it is
strictly greater than the declared count.  `readField` yields its
out-of-range format error iff the field index exceeds `header.fieldCount`,
and `readFields` yields its own iff the starting index exceeds
`header.fieldIndicesCount`; an index equal to the declared count passes the
check, so the read is attempted and any failure is a different error. -/
theorem bounds_check_exact (h : Header) (data : List Nat) (m : FieldMap)
    (index count : Nat) :
    (readField h data m index =
        .error (.fieldIndexOutOfRange index h.fieldCount)
      ↔ h.fieldCount < index)
  ∧ (readFields h data m index count =
        .error (.fieldIndicesOutOfRange index h.fieldIndicesCount)
      ↔ h.fieldIndicesCount < index) := by
  constructor
  · constructor
    · intro he
      by_contra hnot
      unfold readField at he
      rw [if_neg hnot] at he
      split at he
      · rename_i e1 heq
        cases he
        have := readUint32LE_err _ _ heq
        cases this
      · split at he
        · rename_i e1 heq
          cases he
          have := readUint32LE_err _ _ heq
          cases this
        · split at he
          · rename_i e1 heq
            cases he
            have := readUint32LE_err _ _ heq
            cases this
          · split at he
            · rename_i e1 heq
              cases he
              have := readLabel_err _ _ _ _ heq
              cases this
            · cases he
    · intro hlt
      unfold readField
      rw [if_pos hlt]
  · constructor
    · intro he
      by_contra hnot
      unfold readFields at he
      rw [if_neg hnot] at he
      split at he
      · rename_i e1 heq
        cases he
        have := readIndices_err count _ _ heq
        cases this
      · rcases readFieldsLoop_err h data _ m _ he with h1 | ⟨a, b, h1⟩ <;>
          cases h1
    · intro hlt
      unfold readFields
      rw [if_pos hlt]

/-- The counting pass errors out whenever any run position the scan reaches
has its count word overrunning the table. -/
theorem countRunsAux_violation (raw : List Nat) (fuel : Nat) :
    ∀ (i p : Nat), p ∈ runPositionsAux raw fuel i →
      raw.length < p + raw.getD p 0 →
      countRunsAux raw fuel i = .error .listIndicesBroken := by
  induction fuel with
  | zero =>
    intro i p hp
    simp [runPositionsAux] at hp
  | succ f ih =>
    intro i p hp hv
    unfold runPositionsAux at hp
    unfold countRunsAux
    by_cases hi : i < raw.length
    · rw [if_pos hi] at hp
      rw [if_pos hi]
      rcases List.mem_cons.mp hp with rfl | hp2
      · rw [if_pos (by omega)]
      · by_cases hb : i + raw.getD i 0 > raw.length
        · rw [if_pos hb]
        · rw [if_neg hb]
          rw [ih _ p hp2 hv]
    · rw [if_neg hi] at hp
      cases hp

/-- Every run the building pass produces lies wholly inside the table and
carries exactly as many struct indices as its count word: nothing is
truncated. -/
theorem buildRunsAux_sound (raw : List Nat) (fuel : Nat) :
    ∀ (i : Nat) (pairs : List (Nat × List Nat)),
      buildRunsAux raw fuel i = .ok pairs →
      ∀ pr ∈ pairs, pr.1 + 1 + pr.2.length ≤ raw.length
        ∧ pr.2.length = raw.getD pr.1 0 := by
  induction fuel with
  | zero =>
    intro i pairs hok pr hpr
    cases hok
    cases hpr
  | succ f ih =>
    intro i pairs hok pr hpr
    unfold buildRunsAux at hok
    by_cases hi : i < raw.length
    · rw [if_pos hi] at hok
      by_cases hb : i + 1 + raw.getD i 0 ≤ raw.length
      · rw [if_pos hb] at hok
        split at hok
        · cases hok
        · rename_i rest heq
          cases hok
          rcases List.mem_cons.mp hpr with rfl | hpr2
          · constructor
            · simp only [List.length_take, List.length_drop]
              omega
            · simp only [List.length_take, List.length_drop]
              omega
          · exact ih _ rest heq pr hpr2
      · rw [if_neg hb] at hok
        cases hok
    · rw [if_neg hi] at hok
      cases hok
      cases hpr

/-- C4: a run of the list-indices word table whose position plus count word
exceeds the table's word count always makes the whole decode fail with the
"List indices broken" format error; and whenever the decode succeeds, every
produced run satisfied `position + count <= tableWordCount` and its list
holds exactly `count` struct references — never a truncated or partial
list. -/
theorem list_run_bounds (raw : List Nat) :
    (∀ p ∈ runPositionsAux raw raw.length 0,
        raw.length < p + raw.getD p 0 →
        readListsWords raw = .error .listIndicesBroken)
  ∧ (∀ pairs, readListsWords raw = .ok pairs →
        ∀ pr ∈ pairs, pr.1 + raw.getD pr.1 0 ≤ raw.length
          ∧ pr.2.length = raw.getD pr.1 0) := by
  constructor
  · intro p hp hv
    unfold readListsWords
    rw [countRunsAux_violation raw raw.length 0 p hp hv]
  · intro pairs hok pr hpr
    unfold readListsWords at hok
    split at hok
    · cases hok
    · have := buildRunsAux_sound raw raw.length 0 pairs hok pr hpr
      omega

/-- Witness for `list_run_bounds`: the table [3, 0] opens with a run at
word 0 claiming 3 indices where only 1 more word exists, and the decode
fails with the format error. -/
theorem list_run_bounds_witness :
    (0 : Nat) ∈ runPositionsAux [3, 0] (List.length [3, 0]) 0
  ∧ List.length [3, 0] < 0 + List.getD [3, 0] 0 0
  ∧ readListsWords [3, 0] = .error .listIndicesBroken :=
  ⟨by decide, by decide, (list_run_bounds [3, 0]).1 0 (by decide) (by decide)⟩

end GFF
